import Mathlib

/-!
Verification development for the AuditAI web client (`apps/web`) and the
event/job subsystem described in the repository specification.

The embedding below translates the TypeScript source shallowly:
  * `lib/api.ts` (`generateAiAnalysis`, stream aggregation, error paths),
  * `components/AiAnalysisSection.tsx` (`handleGenerate` and its re-entry guard),
  * `app/page.tsx` (`handleStart` target validation),
  * `lib/sse.ts` and its robust variant (`useScanLogs` event handlers),
  * the EventBus of the backend service (modelled from the spec, the
    service's Python sources are not part of this tree).

JavaScript's `JSON.parse` is modelled by a strict RFC-8259 recursive-descent
parser over the character list of the input, with a fuel argument bounding
recursion depth (the fuel given by `jsonParse` always suffices because every
recursive call consumes at least one character first).
-/

namespace Relic

/-- A parsed JSON value.  Numbers keep their raw lexeme: the client never
computes with them, it only passes parsed values through. -/
inductive Json where
  | jnull : Json
  | jbool : Bool → Json
  | jnum : String → Json
  | jstr : String → Json
  | jarr : List Json → Json
  | jobj : List (String × Json) → Json

/-- The opening-brace character, kept named so that source text stays free of
raw brace literals. -/
def lbraceChar : Char := Char.ofNat 123

/-- The closing-brace character. -/
def rbraceChar : Char := Char.ofNat 125

def isWsChar (c : Char) : Bool :=
  c = ' ' || c = '\t' || c = '\n' || c = '\r'

def skipWs : List Char → List Char
  | [] => []
  | c :: cs => if isWsChar c then skipWs cs else c :: cs

def hexVal (c : Char) : Option Nat :=
  if c.isDigit then some (c.toNat - 48)
  else if 'a' ≤ c && c ≤ 'f' then some (c.toNat - 87)
  else if 'A' ≤ c && c ≤ 'F' then some (c.toNat - 55)
  else none

/-- Decode the single character following a backslash in a JSON string
literal, returning the decoded character and the remaining input. -/
def unescape : List Char → Option (Char × List Char)
  | [] => none
  | e :: cs =>
    if e = '\"' then some ( '\"', cs)
    else if e = '\\' then some ( '\\', cs)
    else if e = '/' then some ( '/', cs)
    else if e = 'b' then some (Char.ofNat 8, cs)
    else if e = 'f' then some (Char.ofNat 12, cs)
    else if e = 'n' then some ( '\n', cs)
    else if e = 'r' then some ( '\r', cs)
    else if e = 't' then some ( '\t', cs)
    else if e = 'u' then
      match cs with
      | h1 :: h2 :: h3 :: h4 :: cs2 =>
        match hexVal h1, hexVal h2, hexVal h3, hexVal h4 with
        | some a, some b, some c, some d =>
          some (Char.ofNat (((a * 16 + b) * 16 + c) * 16 + d), cs2)
        | _, _, _, _ => none
      | _ => none
    else none

/-- Parse the body of a JSON string literal (the opening quote already
consumed), up to and including the closing quote. -/
def parseStringChars : Nat → List Char → Option (List Char × List Char)
  | 0, _ => none
  | _ + 1, [] => none
  | fuel + 1, c :: rest =>
    if c = '\"' then some ([], rest)
    else if c = '\\' then
      match unescape rest with
      | some (ch, rest2) =>
        match parseStringChars fuel rest2 with
        | some (out, rem) => some (ch :: out, rem)
        | none => none
      | none => none
    else if c.toNat < 32 then none
    else
      match parseStringChars fuel rest with
      | some (out, rem) => some (c :: out, rem)
      | none => none

def takeDigits : List Char → List Char × List Char
  | [] => ([], [])
  | c :: cs =>
    if c.isDigit then
      let (ds, rest) := takeDigits cs
      (c :: ds, rest)
    else ([], c :: cs)

/-- JSON integer part: `0`, or a nonzero digit followed by digits. -/
def parseIntPart : List Char → Option (List Char × List Char)
  | [] => none
  | c :: cs =>
    if c = '0' then some ([c], cs)
    else if c.isDigit then
      let (ds, rest) := takeDigits cs
      some (c :: ds, rest)
    else none

def parseFracPart : List Char → Option (List Char × List Char)
  | [] => some ([], [])
  | c :: cs =>
    if c = '.' then
      match takeDigits cs with
      | ([], _) => none
      | (ds, rest) => some (c :: ds, rest)
    else some ([], c :: cs)

def parseExpPart : List Char → Option (List Char × List Char)
  | [] => some ([], [])
  | c :: cs =>
    if c = 'e' || c = 'E' then
      match cs with
      | [] => none
      | s :: cs2 =>
        if s = '+' || s = '-' then
          match takeDigits cs2 with
          | ([], _) => none
          | (ds, rest) => some (c :: s :: ds, rest)
        else
          match takeDigits cs with
          | ([], _) => none
          | (ds, rest) => some (c :: ds, rest)
    else some ([], c :: cs)

def parseNumber (cs : List Char) : Option (String × List Char) :=
  let signSplit : List Char × List Char :=
    match cs with
    | c :: rest => if c = '-' then ([c], rest) else ([], cs)
    | [] => ([], [])
  match parseIntPart signSplit.2 with
  | none => none
  | some (ip, cs2) =>
    match parseFracPart cs2 with
    | none => none
    | some (fp, cs3) =>
      match parseExpPart cs3 with
      | none => none
      | some (ep, cs4) => some (String.mk (signSplit.1 ++ ip ++ fp ++ ep), cs4)

/-- Consume an expected literal tail (e.g. `rue` after `t`). -/
def dropLit : List Char → List Char → Option (List Char)
  | [], cs => some cs
  | _ :: _, [] => none
  | l :: ls, c :: cs => if c = l then dropLit ls cs else none

mutual

def parseValue : Nat → List Char → Option (Json × List Char)
  | 0, _ => none
  | fuel + 1, cs =>
    match skipWs cs with
    | [] => none
    | c :: rest =>
      if c = '\"' then
        match parseStringChars (rest.length + 1) rest with
        | some (out, rem) => some (.jstr (String.mk out), rem)
        | none => none
      else if c = lbraceChar then
        match skipWs rest with
        | [] => none
        | c2 :: rest2 =>
          if c2 = rbraceChar then some (.jobj [], rest2)
          else
            match parseMembers fuel (c2 :: rest2) with
            | some (ms, rem) => some (.jobj ms, rem)
            | none => none
      else if c = '[' then
        match skipWs rest with
        | [] => none
        | c2 :: rest2 =>
          if c2 = ']' then some (.jarr [], rest2)
          else
            match parseElems fuel (c2 :: rest2) with
            | some (vs, rem) => some (.jarr vs, rem)
            | none => none
      else if c = 't' then
        match dropLit [ 'r', 'u', 'e' ] rest with
        | some rem => some (.jbool true, rem)
        | none => none
      else if c = 'f' then
        match dropLit [ 'a', 'l', 's', 'e' ] rest with
        | some rem => some (.jbool false, rem)
        | none => none
      else if c = 'n' then
        match dropLit [ 'u', 'l', 'l' ] rest with
        | some rem => some (.jnull, rem)
        | none => none
      else
        match parseNumber (c :: rest) with
        | some (s, rem) => some (.jnum s, rem)
        | none => none

def parseMembers : Nat → List Char → Option (List (String × Json) × List Char)
  | 0, _ => none
  | fuel + 1, cs =>
    match skipWs cs with
    | [] => none
    | c :: rest =>
      if c = '\"' then
        match parseStringChars (rest.length + 1) rest with
        | some (key, cs2) =>
          match skipWs cs2 with
          | [] => none
          | c2 :: cs3 =>
            if c2 = ':' then
              match parseValue fuel cs3 with
              | some (v, cs4) =>
                match skipWs cs4 with
                | [] => none
                | c3 :: cs5 =>
                  if c3 = ',' then
                    match parseMembers fuel cs5 with
                    | some (ms, cs6) => some ((String.mk key, v) :: ms, cs6)
                    | none => none
                  else if c3 = rbraceChar then some ([(String.mk key, v)], cs5)
                  else none
              | none => none
            else none
        | none => none
      else none

def parseElems : Nat → List Char → Option (List Json × List Char)
  | 0, _ => none
  | fuel + 1, cs =>
    match parseValue fuel cs with
    | some (v, cs2) =>
      match skipWs cs2 with
      | [] => none
      | c :: cs3 =>
        if c = ',' then
          match parseElems fuel cs3 with
          | some (vs, cs4) => some (v :: vs, cs4)
          | none => none
        else if c = ']' then some ([v], cs3)
        else none
    | none => none

end

/-- Model of JavaScript `JSON.parse`: parse one JSON document and reject
trailing non-whitespace.  Returns `none` exactly when `JSON.parse` throws. -/
def jsonParse (s : String) : Option Json :=
  match parseValue (s.length + 2) s.data with
  | some (v, rem) =>
    match skipWs rem with
    | [] => some v
    | _ :: _ => none
  | none => none

/-! ## Client model of `generateAiAnalysis` (apps/web/lib/api.ts) -/

/-- Kind of a JavaScript exception escaping `generateAiAnalysis`:
`error v` is `throw new Error(v)` carrying the value given to the `Error`
constructor (the resulting message is that value's string coercion);
`typeError` is the `TypeError` raised by the property access
`errorData.detail` when `errorData` is `null`; `abortError` is the rejection
produced when the ten-minute `setTimeout` fires `controller.abort()`. -/
inductive ThrownKind where
  | error : Json → ThrownKind
  | typeError : ThrownKind
  | abortError : ThrownKind

/-- How the `generateAiAnalysis` promise settles. -/
inductive FetchOutcome where
  | thrown : ThrownKind → FetchOutcome
  | resolved : Json → FetchOutcome

/-- The HTTP response seen by `generateAiAnalysis`.  `body` is the raw
response body text, read and parsed by `await res.json()` on the `!res.ok`
path.  `chunks` is the sequence of text chunks delivered by `res.body`'s
reader on the success path. -/
structure AiResponse where
  ok : Bool
  body : String
  hasBody : Bool
  chunks : List String

def defaultAiErrorMessage : String := "Failed to generate AI analysis"

/-- `await res.json().catch(() => ({}))`: the body text parsed as JSON, or
the empty object when parsing rejects. -/
def errorDataOf (body : String) : Json :=
  (jsonParse body).getD (.jobj [])

/-- Property lookup on an object produced by `JSON.parse`: duplicate keys
are assigned in order, so the last occurrence wins. -/
def lookupField : List (String × Json) → String → Option Json
  | [], _ => none
  | (k2, v) :: rest, k =>
    match lookupField rest k with
    | some w => some w
    | none => if k2 = k then some v else none

/-- Result of the JavaScript property access `errorData.detail`. -/
inductive PropResult where
  | typeError : PropResult
  | undefined : PropResult
  | val : Json → PropResult

/-- `errorData.detail`: throws a `TypeError` when `errorData` is `null`;
yields `undefined` on primitives and arrays (which have no own `detail`
property) and on objects lacking the key; otherwise the property value. -/
def getDetailProp : Json → PropResult
  | .jnull => .typeError
  | .jobj fields =>
    match lookupField fields "detail" with
    | some v => .val v
    | none => .undefined
  | _ => .undefined

/-- A JSON number lexeme denotes zero iff every digit of its integer and
fraction parts is `0` (the sign and the exponent are irrelevant). -/
def numLexemeIsZero (s : String) : Bool :=
  (s.data.takeWhile (fun c => c != 'e' && c != 'E')).all
    (fun c => !c.isDigit || c == '0')

/-- JavaScript truthiness of a value produced by `JSON.parse`: `null`,
`false`, the empty string and zero are falsy; every object and array is
truthy. -/
def jsTruthy : Json → Bool
  | .jnull => false
  | .jbool b => b
  | .jstr s => s != ""
  | .jnum s => !numLexemeIsZero s
  | .jarr _ => true
  | .jobj _ => true

/-- The `!res.ok` branch of `generateAiAnalysis`: the `errorData.detail`
access throws a `TypeError` when `errorData` is `null`; otherwise
`throw new Error(errorData.detail || "Failed to generate AI analysis")` —
`undefined` and every falsy `detail` (including the empty string) fall
through to the fixed fallback string, a truthy `detail` is handed to the
`Error` constructor itself. -/
def errorThrow (errorData : Json) : ThrownKind :=
  match getDetailProp errorData with
  | .typeError => .typeError
  | .undefined => .error (.jstr defaultAiErrorMessage)
  | .val v => .error (if jsTruthy v then v else .jstr defaultAiErrorMessage)

/-- The read loop `fullText += chunk` over the whole stream. -/
def aggregate (chunks : List String) : String :=
  chunks.foldl (fun acc c => acc ++ c) ""

/-- The final `try { return JSON.parse(fullText) } catch { return
{ raw_text: fullText, error: "Failed to parse JSON" } }`. -/
def finalizeAnalysis (fullText : String) : Json :=
  match jsonParse fullText with
  | some v => v
  | none => .jobj [("raw_text", .jstr fullText), ("error", .jstr "Failed to parse JSON")]

/-- Result of one `generateAiAnalysis` call; `timerCleared` records whether
the `finally { clearTimeout(timeoutId) }` ran on the taken exit path. -/
structure AiCallResult where
  outcome : FetchOutcome
  timerCleared : Bool

def generateAiAnalysis (r : AiResponse) : AiCallResult :=
  if r.ok = false then
    { outcome := .thrown (errorThrow (errorDataOf r.body)), timerCleared := true }
  else if r.hasBody = false then
    { outcome := .thrown (.error (.jstr "Response body is empty")), timerCleared := true }
  else
    { outcome := .resolved (finalizeAnalysis (aggregate r.chunks)), timerCleared := true }

/-- The hard-coded `setTimeout(() => controller.abort(), 600000)` bound. -/
def clientStreamTimeoutMs : Nat := 600000

/-- `generateAiAnalysis` with wall-clock time made explicit: if the request
plus stream read takes at least `clientStreamTimeoutMs`, the abort fires and
the pending read rejects; otherwise the untimed behaviour applies. -/
def generateAiAnalysisTimed (r : AiResponse) (elapsedMs : Nat) : AiCallResult :=
  if clientStreamTimeoutMs ≤ elapsedMs then
    { outcome := .thrown .abortError, timerCleared := true }
  else generateAiAnalysis r

/-! ## `handleGenerate` (components/AiAnalysisSection.tsx) -/

/-- Component state touched by `handleGenerate`. -/
structure GenState where
  isGenerating : Bool
  loading : Bool
  analysis : Option Json
  errorMsg : Option String
  streamedText : String

/-- Outcome of one synchronous entry into a start handler.  The code paths
produce only `started` and `silentlyIgnored`; `rejectedWith` is the
vocabulary needed to state the spec's expected rejection outcomes. -/
inductive StartOutcome where
  | started : StartOutcome
  | silentlyIgnored : StartOutcome
  | rejectedWith : String → StartOutcome
deriving DecidableEq, Repr

/-- The synchronous head of `handleGenerate`: the `isGeneratingRef` guard
returns early, otherwise the flag is set and the state is reset. -/
def genBegin (s : GenState) : GenState × StartOutcome :=
  if s.isGenerating then (s, .silentlyIgnored)
  else ({ isGenerating := true, loading := true, analysis := none,
          errorMsg := none, streamedText := "" }, .started)

mutual

/-- JavaScript `String(v)` for a `JSON.parse` value: strings pass through,
arrays join their coerced elements with commas (a `null` element renders
empty), objects render as `[object Object]`.  A number renders as its
lexeme here; ECMAScript renders the shortest decimal round-tripping through
the parsed double, which agrees with the lexeme whenever the lexeme is
already in that canonical form — no theorem below consults a numeric
rendering. -/
def jsCoerceMessage : Json → String
  | .jnull => "null"
  | .jbool true => "true"
  | .jbool false => "false"
  | .jnum s => s
  | .jstr s => s
  | .jobj _ => "[object Object]"
  | .jarr vs => jsCoerceElems vs

def jsCoerceElems : List Json → String
  | [] => ""
  | [Json.jnull] => ""
  | [v] => jsCoerceMessage v
  | Json.jnull :: rest => "," ++ jsCoerceElems rest
  | v :: rest => jsCoerceMessage v ++ "," ++ jsCoerceElems rest

end

/-- `err.message` of the caught exception: an `Error` built from a value
carries that value's string coercion, a `TypeError` from the null property
access carries the engine's description, and the abort rejection's message
is browser-defined (any fixed non-empty text models it). -/
def thrownMessage : ThrownKind → String
  | .error v => jsCoerceMessage v
  | .typeError => "Cannot read properties of null (reading 'detail')"
  | .abortError => "The operation was aborted"

/-- The continuation of `handleGenerate` once `generateAiAnalysis` settles:
success records the resolved value via `setAnalysis`, an exception records
`err.message || "Failed to generate analysis"` via `setError`. -/
def genFinish (s : GenState) (res : AiCallResult) : GenState :=
  match res.outcome with
  | .resolved v =>
    { s with analysis := some v, loading := false, isGenerating := false }
  | .thrown k =>
    let m := thrownMessage k
    { s with errorMsg := some (if m = "" then "Failed to generate analysis" else m),
             loading := false, isGenerating := false }

/-! ## `handleStart` (app/page.tsx) -/

/-- Observable effects of one `handleStart` submission. -/
structure StartEffects where
  outcome : StartOutcome
  requestsIssued : Nat
  eventsEmitted : Nat
deriving DecidableEq, Repr

/-- `if (!target) return;` — the empty string is falsy, so an empty target
returns before any request is sent; otherwise exactly one start request is
issued.  The start call itself emits no events. -/
def handleStart (target : String) : StartEffects :=
  if target = "" then
    { outcome := .silentlyIgnored, requestsIssued := 0, eventsEmitted := 0 }
  else
    { outcome := .started, requestsIssued := 1, eventsEmitted := 0 }

/-! ## `useScanLogs` (lib/sse.ts) and its robust variant -/

/-- The `ScanLog` record consumed by `LogConsole` (`ts`/`level`/`msg`). -/
structure ScanLog where
  ts : String
  level : String
  msg : String
deriving DecidableEq, Repr

/-- A parsed `log` event payload of the shape the event contract names:
`{timestamp, level, message}` (each value a string, possibly empty). -/
structure LogPayload where
  timestamp : String
  level : String
  message : String
deriving DecidableEq, Repr

/-- Events deliverable to the `EventSource` handlers of `useScanLogs`. -/
inductive ScanEvent where
  | logEv : LogPayload → ScanEvent
  | doneEv : String → ScanEvent
  | errorEv : ScanEvent
deriving DecidableEq, Repr

/-- Hook state plus whether `eventSource.close()` has run; after `close()`
the browser delivers no further events to the handlers. -/
structure SseState where
  logs : List LogPayload
  status : String
  closed : Bool
deriving DecidableEq, Repr

/-- One event dispatch in `lib/sse.ts`: the `log` listener appends the parsed
payload verbatim, `done` stores the payload's status and closes, `onerror`
stores `"error"` and closes. -/
def sseStep (s : SseState) (e : ScanEvent) : SseState :=
  if s.closed then s
  else
    match e with
    | .logEv p => { s with logs := s.logs ++ [p] }
    | .doneEv st => { s with status := st, closed := true }
    | .errorEv => { s with status := "error", closed := true }

def sseRun (s : SseState) (evs : List ScanEvent) : SseState :=
  evs.foldl sseStep s

/-- State right after the effect body ran `setLogs([]); setStatus("running")`
and opened the `EventSource`. -/
def sseInit : SseState :=
  { logs := [], status := "running", closed := false }

/-- The `useEffect` body of `useScanLogs`: `if (!scanId) return;` covers both
`null` and the empty string, so only a nonempty id resets the state and opens
a subscription (the returned flag). -/
def scanLogsEffect (prev : SseState) (scanId : Option String) : SseState × Bool :=
  match scanId with
  | none => (prev, false)
  | some sid => if sid = "" then (prev, false) else (sseInit, true)

def hexDigitChar (n : Nat) : Char :=
  if n < 10 then Char.ofNat (48 + n) else Char.ofNat (87 + n)

/-- `JSON.stringify` escaping for one character of a string value. -/
def jsonEscapeChar (c : Char) : List Char :=
  if c = '\"' then [ '\\', '\"' ]
  else if c = '\\' then [ '\\', '\\' ]
  else if c = '\n' then [ '\\', 'n' ]
  else if c = '\r' then [ '\\', 'r' ]
  else if c = '\t' then [ '\\', 't' ]
  else if c = Char.ofNat 8 then [ '\\', 'b' ]
  else if c = Char.ofNat 12 then [ '\\', 'f' ]
  else if c.toNat < 32 then
    [ '\\', 'u', '0', '0', hexDigitChar (c.toNat / 16), hexDigitChar (c.toNat % 16) ]
  else [c]

def jsonEscape (s : String) : String :=
  String.mk (s.data.map jsonEscapeChar).flatten

/-- `JSON.stringify(data)` for a parsed payload of the contract shape (key
insertion order is the payload's field order). -/
def stringifyLogPayload (p : LogPayload) : String :=
  String.mk [lbraceChar] ++ "\"timestamp\":\"" ++ jsonEscape p.timestamp ++
    "\",\"level\":\"" ++ jsonEscape p.level ++
    "\",\"message\":\"" ++ jsonEscape p.message ++ "\"" ++ String.mk [rbraceChar]

/-- The robust `log` listener (unnamed variant of `useScanLogs`): for a
payload of the contract shape, `data.ts`, `data.msg` and `data.text` are
absent, so the JavaScript `||` chains reduce to: an empty `timestamp` falls
back to `new Date().toISOString()` (passed here as `now`), an empty `level`
falls back to `"INFO"`, and an empty `message` falls back to
`JSON.stringify(data)`. -/
def part005LogEntry (now : String) (p : LogPayload) : ScanLog :=
  { ts := if p.timestamp = "" then now else p.timestamp
  , level := if p.level = "" then "INFO" else p.level
  , msg := if p.message = "" then stringifyLogPayload p else p.message }

/-- Entries accumulated by the robust listener over a payload sequence. -/
def part005Run (now : String) (ps : List LogPayload) : List ScanLog :=
  ps.foldl (fun logs p => logs ++ [part005LogEntry now p]) []

/-- Entries accumulated by the plain `lib/sse.ts` listener, which appends the
parsed payload object itself. -/
def sseLogRun (ps : List LogPayload) : List LogPayload :=
  ps.foldl (fun logs p => logs ++ [p]) []

/-! ## EventBus (modelled from the spec, §4.1)

The backend service that owns the job/event subsystem is not part of this
source tree (only its README is); the definitions below are modelled from
the spec's EventBus contract. -/

/-- Modelled from the spec: the two event kinds of a job's log. -/
inductive BusEv where
  | logE : String → String → BusEv
  | doneE : String → BusEv
deriving DecidableEq, Repr

def BusEv.isDone : BusEv → Bool
  | .doneE _ => true
  | .logE _ _ => false

/-- An event as stored in a job's log, with its assigned sequence number. -/
structure Appended where
  seq : Nat
  ev : BusEv
deriving DecidableEq, Repr

/-- Modelled from the spec: a log is closed when it already ends in `done`. -/
def closedLog (l : List Appended) : Bool :=
  match l.getLast? with
  | some a => a.ev.isDone
  | none => false

/-- Modelled from the spec: `append` rejects (`ClosedJob`) on a closed log,
otherwise atomically assigns the next sequence number and appends. -/
def appendEvent (l : List Appended) (e : BusEv) : Option (List Appended) :=
  if closedLog l then none else some (l ++ [⟨l.length, e⟩])

/-- One producer step: a rejected append leaves the log unchanged. -/
def busStep (l : List Appended) (e : BusEv) : List Appended :=
  (appendEvent l e).getD l

/-- The job's log after the producer attempted the given appends in order. -/
def runBus (evs : List BusEv) : List Appended :=
  evs.foldl busStep []

/-- Modelled from the spec: a subscriber attaching after `k` events replays
the first `k` events from sequence 0 and then receives the live tail in
append order. -/
def observeFrom (l : List Appended) (k : Nat) : List Appended :=
  l.take k ++ l.drop k

def countDone (l : List Appended) : Nat :=
  (l.filter (fun a => a.ev.isDone)).length

/-! ## Helper lemmas -/

theorem aggregate_eq_join (cs : List String) : aggregate cs = String.join cs := rfl

theorem foldl_push_map {α β : Type} (f : α → β) (xs : List α) :
    ∀ acc : List β, xs.foldl (fun l x => l ++ [f x]) acc = acc ++ xs.map f := by
  induction xs with
  | nil => intro acc; simp
  | cons x xs ih => intro acc; simp [ih, List.append_assoc]

theorem sseLogRun_eq (ps : List LogPayload) : sseLogRun ps = ps := by
  have h := foldl_push_map (fun p : LogPayload => p) ps []
  simpa [sseLogRun] using h

theorem part005Run_eq (now : String) (ps : List LogPayload) :
    part005Run now ps = ps.map (part005LogEntry now) := by
  have h := foldl_push_map (part005LogEntry now) ps []
  simpa [part005Run] using h

theorem busStep_closed {l : List Appended} (h : closedLog l = true) (e : BusEv) :
    busStep l e = l := by
  simp [busStep, appendEvent, h]

theorem busStep_open {l : List Appended} (h : closedLog l = false) (e : BusEv) :
    busStep l e = l ++ [⟨l.length, e⟩] := by
  simp [busStep, appendEvent, h]

theorem closedLog_concat (l : List Appended) (a : Appended) :
    closedLog (l ++ [a]) = a.ev.isDone := by
  simp [closedLog, List.getLast?_concat]

/-- The EventBus log invariant: sequence numbers are exactly `0, 1, …`, and
the log holds one `done` event if it is closed, none otherwise. -/
def busInv (l : List Appended) : Prop :=
  l.map (fun a => a.seq) = List.range l.length ∧
  countDone l = if closedLog l then 1 else 0

theorem busInv_nil : busInv [] := by
  simp [busInv, countDone, closedLog]

theorem busInv_step {l : List Appended} (h : busInv l) (e : BusEv) :
    busInv (busStep l e) := by
  by_cases hc : closedLog l = true
  · rw [busStep_closed hc]; exact h
  · have hc2 : closedLog l = false := by simpa using hc
    rw [busStep_open hc2]
    have hcount : countDone l = 0 := by rw [h.2, hc2]; rfl
    have hfilter : l.filter (fun a => a.ev.isDone) = [] :=
      List.length_eq_zero.mp hcount
    constructor
    · simp [List.range_succ, h.1]
    · simp only [countDone, List.filter_append, hfilter, closedLog_concat,
        List.nil_append, List.filter]
      cases hd : (BusEv.isDone e) <;> simp [hd]

theorem busInv_run (evs : List BusEv) : busInv (runBus evs) := by
  suffices h : ∀ l, busInv l → busInv (evs.foldl busStep l) from h [] busInv_nil
  induction evs with
  | nil => intro l h; exact h
  | cons e evs ih => intro l h; exact ih _ (busInv_step h e)

theorem foldl_busStep_closes (evs : List BusEv) :
    ∀ l, (closedLog l = true ∨ ∃ e ∈ evs, e.isDone = true) →
      closedLog (evs.foldl busStep l) = true := by
  induction evs with
  | nil =>
    intro l h
    rcases h with h | ⟨e, he, _⟩
    · exact h
    · simp at he
  | cons e evs ih =>
    intro l h
    by_cases hc : closedLog l = true
    · rw [List.foldl_cons, busStep_closed hc]; exact ih l (Or.inl hc)
    · have hc2 : closedLog l = false := by simpa using hc
      rw [List.foldl_cons, busStep_open hc2]
      by_cases hd : e.isDone = true
      · exact ih _ (Or.inl (by rw [closedLog_concat]; exact hd))
      · rcases h with h | ⟨e0, he0, hd0⟩
        · exact absurd h hc
        · rcases List.mem_cons.mp he0 with rfl | hmem
          · exact absurd hd0 hd
          · exact ih _ (Or.inr ⟨e0, hmem, hd0⟩)

theorem runBus_closed_of_done {evs : List BusEv}
    (h : ∃ e ∈ evs, e.isDone = true) : closedLog (runBus evs) = true :=
  foldl_busStep_closes evs [] (Or.inr h)

theorem sseRun_of_closed {s : SseState} (h : s.closed = true) (evs : List ScanEvent) :
    sseRun s evs = s := by
  induction evs with
  | nil => rfl
  | cons e evs ih =>
    have hstep : sseStep s e = s := by simp [sseStep, h]
    simp only [sseRun, List.foldl_cons] at ih ⊢
    rw [hstep]
    exact ih

/-! ## Claims -/

/-- C1 (counterexample): the accumulated text `"{}"` is well-formed JSON with
every `AnalysisResult` field missing, yet `generateAiAnalysis` resolves with
the parsed empty object, and `handleGenerate` records it via `setAnalysis`
with no error — the operation ends as a success, it is not terminated as an
`AnalysisParseFailure` error. -/
theorem C1_counterexample :
    generateAiAnalysis { ok := true, body := "", hasBody := true, chunks := ["\x7b\x7d"] }
      = { outcome := .resolved (.jobj []), timerCleared := true } ∧
    (genFinish { isGenerating := true, loading := true, analysis := none,
                 errorMsg := none, streamedText := "\x7b\x7d" }
        (generateAiAnalysis { ok := true, body := "", hasBody := true, chunks := ["\x7b\x7d"] })).analysis
      = some (.jobj []) ∧
    (genFinish { isGenerating := true, loading := true, analysis := none,
                 errorMsg := none, streamedText := "\x7b\x7d" }
        (generateAiAnalysis { ok := true, body := "", hasBody := true, chunks := ["\x7b\x7d"] })).errorMsg
      = none :=
  ⟨rfl, rfl, rfl⟩

/-- C1 (amended): on a successful streaming response the client resolves with
`JSON.parse` of the accumulated text when it parses — with no validation of
required fields, so a partial or empty object is returned as-is — and with
`{raw_text, error}` carrying the raw accumulated text when it does not parse;
it never terminates the operation as a thrown error. -/
theorem C1_resolves_unvalidated (r : AiResponse) (hok : r.ok = true)
    (hb : r.hasBody = true) :
    generateAiAnalysis r
      = { outcome := .resolved (finalizeAnalysis (aggregate r.chunks)), timerCleared := true } ∧
    (jsonParse (aggregate r.chunks) = none →
      finalizeAnalysis (aggregate r.chunks)
        = .jobj [("raw_text", .jstr (aggregate r.chunks)),
                 ("error", .jstr "Failed to parse JSON")]) ∧
    (∀ v, jsonParse (aggregate r.chunks) = some v →
      finalizeAnalysis (aggregate r.chunks) = v) ∧
    ∀ k, (generateAiAnalysis r).outcome ≠ .thrown k := by
  have hmain : generateAiAnalysis r
      = { outcome := .resolved (finalizeAnalysis (aggregate r.chunks)), timerCleared := true } := by
    simp [generateAiAnalysis, hok, hb]
  refine ⟨hmain, ?_, ?_, ?_⟩
  · intro hp; simp [finalizeAnalysis, hp]
  · intro v hp; simp [finalizeAnalysis, hp]
  · intro k; rw [hmain]; simp

/-- C1 witness: the amended theorem applied to the `"{}"` stream. -/
theorem C1_witness :
    generateAiAnalysis { ok := true, body := "", hasBody := true, chunks := ["\x7b\x7d"] }
      = { outcome := .resolved (finalizeAnalysis (aggregate ["\x7b\x7d"])), timerCleared := true } :=
  (C1_resolves_unvalidated
    { ok := true, body := "", hasBody := true, chunks := ["\x7b\x7d"] } rfl rfl).1

/-- C2: the read loop concatenates the chunks in exactly stream order (the
accumulator equals the join of the chunks in delivery order), and any two
chunkings with the same total text finalize to the identical result. -/
theorem C2_chunking_invariance (cs1 cs2 : List String)
    (h : String.join cs1 = String.join cs2) :
    aggregate cs1 = String.join cs1 ∧
    finalizeAnalysis (aggregate cs1) = finalizeAnalysis (aggregate cs2) := by
  refine ⟨aggregate_eq_join cs1, ?_⟩
  rw [aggregate_eq_join, aggregate_eq_join, h]

/-- C2 witness: a mid-token split of the same document yields the same
finalized result. -/
theorem C2_witness :
    String.join ["\x7b\"globalSc", "ore\":1\x7d"] = String.join ["\x7b\"globalScore\":1\x7d"] ∧
    (aggregate ["\x7b\"globalSc", "ore\":1\x7d"] = String.join ["\x7b\"globalSc", "ore\":1\x7d"] ∧
     finalizeAnalysis (aggregate ["\x7b\"globalSc", "ore\":1\x7d"])
       = finalizeAnalysis (aggregate ["\x7b\"globalScore\":1\x7d"])) :=
  ⟨rfl, C2_chunking_invariance ["\x7b\"globalSc", "ore\":1\x7d"] ["\x7b\"globalScore\":1\x7d"] rfl⟩

/-- C3 (counterexample): a second `handleGenerate` entry while the first is
in flight returns early — the silently-ignored outcome, which is not a
rejection carrying `AlreadyRunning`. -/
theorem C3_counterexample :
    (genBegin (genBegin { isGenerating := false, loading := false, analysis := none,
                          errorMsg := none, streamedText := "" }).1).2
      = .silentlyIgnored ∧
    StartOutcome.silentlyIgnored ≠ .rejectedWith "AlreadyRunning" :=
  ⟨rfl, by decide⟩

/-- C3 (amended): while a generation is in flight the guard keeps exactly one
generation running — the second entry leaves the state unchanged (no second
request, no error recorded) and is silently ignored rather than rejected
with `AlreadyRunning`. -/
theorem C3_single_flight (s : GenState) (h : s.isGenerating = false) :
    (genBegin s).2 = .started ∧
    (genBegin s).1.isGenerating = true ∧
    genBegin (genBegin s).1 = ((genBegin s).1, .silentlyIgnored) := by
  simp [genBegin, h]

/-- C3 witness: the amended theorem at the idle initial state. -/
theorem C3_witness :
    (genBegin { isGenerating := false, loading := false, analysis := none,
                errorMsg := none, streamedText := "" }).2 = .started ∧
    (genBegin { isGenerating := false, loading := false, analysis := none,
                errorMsg := none, streamedText := "" }).1.isGenerating = true ∧
    genBegin (genBegin { isGenerating := false, loading := false, analysis := none,
                         errorMsg := none, streamedText := "" }).1
      = ((genBegin { isGenerating := false, loading := false, analysis := none,
                     errorMsg := none, streamedText := "" }).1, .silentlyIgnored) :=
  C3_single_flight { isGenerating := false, loading := false, analysis := none,
                     errorMsg := none, streamedText := "" } rfl

/-- C5 (counterexample): submitting the empty target returns early from
`handleStart` — silently ignored, not a rejection carrying `InvalidInput`. -/
theorem C5_counterexample :
    handleStart "" = { outcome := .silentlyIgnored, requestsIssued := 0, eventsEmitted := 0 } ∧
    StartOutcome.silentlyIgnored ≠ .rejectedWith "InvalidInput" :=
  ⟨rfl, by decide⟩

/-- C5 (amended): the empty-string target is dropped synchronously — no start
request is issued (so no job is created) and no events are emitted — but the
drop is silent: no `InvalidInput` rejection is surfaced to the user. -/
theorem C5_empty_target_ignored :
    handleStart "" = { outcome := .silentlyIgnored, requestsIssued := 0, eventsEmitted := 0 } :=
  rfl

/-- C4: for a job whose producer eventually appends a `done` event, the log
holds contiguous sequence numbers `0, 1, …` (hence strictly increasing),
exactly one `done` event, the last event is the `done` (the log is closed),
and a subscriber attaching after any number `k` of events — replay of the
first `k` then the live tail — observes exactly the append-order log. -/
theorem C4_event_log_invariants (evs : List BusEv)
    (h : ∃ e ∈ evs, e.isDone = true) :
    (runBus evs).map (fun a => a.seq) = List.range (runBus evs).length ∧
    List.Pairwise (· < ·) ((runBus evs).map (fun a => a.seq)) ∧
    countDone (runBus evs) = 1 ∧
    closedLog (runBus evs) = true ∧
    ∀ k, observeFrom (runBus evs) k = runBus evs := by
  have hinv := busInv_run evs
  have hclosed := runBus_closed_of_done h
  refine ⟨hinv.1, ?_, ?_, hclosed, ?_⟩
  · rw [hinv.1]; exact List.pairwise_lt_range _
  · rw [hinv.2, hclosed]; rfl
  · intro k
    show (runBus evs).take k ++ (runBus evs).drop k = runBus evs
    exact List.take_append_drop k (runBus evs)

/-- C4 witness: the invariants at a concrete two-event job log. -/
theorem C4_witness :
    (∃ e ∈ [BusEv.logE "INFO" "starting", BusEv.doneE "done"], e.isDone = true) ∧
    ((runBus [BusEv.logE "INFO" "starting", BusEv.doneE "done"]).map (fun a => a.seq)
        = List.range (runBus [BusEv.logE "INFO" "starting", BusEv.doneE "done"]).length ∧
     List.Pairwise (· < ·)
        ((runBus [BusEv.logE "INFO" "starting", BusEv.doneE "done"]).map (fun a => a.seq)) ∧
     countDone (runBus [BusEv.logE "INFO" "starting", BusEv.doneE "done"]) = 1 ∧
     closedLog (runBus [BusEv.logE "INFO" "starting", BusEv.doneE "done"]) = true ∧
     ∀ k, observeFrom (runBus [BusEv.logE "INFO" "starting", BusEv.doneE "done"]) k
        = runBus [BusEv.logE "INFO" "starting", BusEv.doneE "done"]) :=
  ⟨by decide, C4_event_log_invariants _ (by decide)⟩

/-- C6 (counterexample): a payload of the contract shape whose `level` is the
empty string gets `"INFO"` substituted by the robust listener's `||` chain —
the appended entry's level differs from the payload's level. -/
theorem C6_counterexample :
    part005LogEntry "1970-01-01T00:00:00.000Z"
        { timestamp := "2024-05-05T10:00:00Z", level := "", message := "hello" }
      = { ts := "2024-05-05T10:00:00Z", level := "INFO", msg := "hello" } ∧
    ("INFO" : String) ≠ "" :=
  ⟨rfl, by decide⟩

/-- C6 (amended): each `log` event appends exactly one entry and entries
appear in arrival order; the plain `lib/sse.ts` listener appends the parsed
payload itself (fields always equal), while the robust listener's entry
equals the payload's `timestamp`/`level`/`message` only when those values
are non-empty (empty values fall back to the current time, `"INFO"`, and
`JSON.stringify` of the payload, respectively). -/
theorem C6_log_entries (ps : List LogPayload) (now : String) (p : LogPayload)
    (ht : p.timestamp ≠ "") (hl : p.level ≠ "") (hm : p.message ≠ "") :
    sseLogRun ps = ps ∧
    part005LogEntry now p = { ts := p.timestamp, level := p.level, msg := p.message } ∧
    part005Run now ps = ps.map (part005LogEntry now) := by
  refine ⟨sseLogRun_eq ps, ?_, part005Run_eq now ps⟩
  simp [part005LogEntry, ht, hl, hm]

/-- C6 witness: the amended theorem at a concrete non-empty payload. -/
theorem C6_witness :
    ("2024-05-05T10:00:00Z" : String) ≠ "" ∧ ("INFO" : String) ≠ "" ∧
    ("hello" : String) ≠ "" ∧
    (sseLogRun [{ timestamp := "2024-05-05T10:00:00Z", level := "INFO", message := "hello" }]
        = [{ timestamp := "2024-05-05T10:00:00Z", level := "INFO", message := "hello" }] ∧
     part005LogEntry "1970-01-01T00:00:00.000Z"
        { timestamp := "2024-05-05T10:00:00Z", level := "INFO", message := "hello" }
        = { ts := "2024-05-05T10:00:00Z", level := "INFO", msg := "hello" } ∧
     part005Run "1970-01-01T00:00:00.000Z"
        [{ timestamp := "2024-05-05T10:00:00Z", level := "INFO", message := "hello" }]
        = [{ timestamp := "2024-05-05T10:00:00Z", level := "INFO", message := "hello" }].map
            (part005LogEntry "1970-01-01T00:00:00.000Z")) :=
  ⟨by decide, by decide, by decide,
   C6_log_entries _ "1970-01-01T00:00:00.000Z" _ (by decide) (by decide) (by decide)⟩

/-- C7: if the subscription is still open when the `done` event arrives, the
handler stores the `done` payload's status and closes the `EventSource`, and
no later event — log, done, or error — changes the collected logs or the
status. -/
theorem C7_done_terminal (pre suf : List ScanEvent) (d : String)
    (h : (sseRun sseInit pre).closed = false) :
    sseRun sseInit (pre ++ .doneEv d :: suf)
      = { logs := (sseRun sseInit pre).logs, status := d, closed := true } := by
  have happ : sseRun sseInit (pre ++ ScanEvent.doneEv d :: suf)
      = sseRun (sseStep (sseRun sseInit pre) (ScanEvent.doneEv d)) suf := by
    simp [sseRun, List.foldl_append]
  rw [happ]
  have hstep : sseStep (sseRun sseInit pre) (ScanEvent.doneEv d)
      = { logs := (sseRun sseInit pre).logs, status := d, closed := true } := by
    simp [sseStep, h]
  rw [hstep]
  exact sseRun_of_closed rfl suf

/-- C7 witness: a log event, then `done`, then ignored trailing events. -/
theorem C7_witness :
    (sseRun sseInit [.logEv { timestamp := "t1", level := "INFO", message := "m1" }]).closed
      = false ∧
    sseRun sseInit
        ([.logEv { timestamp := "t1", level := "INFO", message := "m1" }] ++
          .doneEv "done" ::
            [.logEv { timestamp := "t2", level := "INFO", message := "m2" }, .errorEv])
      = { logs := (sseRun sseInit
            [.logEv { timestamp := "t1", level := "INFO", message := "m1" }]).logs,
          status := "done", closed := true } :=
  ⟨by decide, C7_done_terminal _ _ "done" (by decide)⟩

/-- C8 (counterexample): the client's stream read bound is the hard-coded
constant 600000 ms baked into `generateAiAnalysis` — not a configurable
parameter — and exceeding it surfaces the abort rejection of the fetch, not
a `ProviderUnavailable` error. -/
theorem C8_counterexample :
    clientStreamTimeoutMs = 600000 ∧
    generateAiAnalysisTimed { ok := true, body := "", hasBody := true, chunks := ["x"] }
        600000
      = { outcome := .thrown .abortError, timerCleared := true } ∧
    ThrownKind.abortError ≠ .error (.jstr "ProviderUnavailable") :=
  ⟨rfl, rfl, fun h => ThrownKind.noConfusion h⟩

/-- C8 (amended): the stream read is bounded — any call running for at least
the hard-coded 600000 ms constant is aborted rather than hanging — but the
bound is a fixed implicit constant of the client, and exceeding it yields
the fetch abort rejection, not a `ProviderUnavailable` error. -/
theorem C8_fixed_timeout (r : AiResponse) (elapsedMs : Nat)
    (h : clientStreamTimeoutMs ≤ elapsedMs) :
    generateAiAnalysisTimed r elapsedMs
      = { outcome := .thrown .abortError, timerCleared := true } ∧
    clientStreamTimeoutMs = 600000 := by
  constructor
  · simp [generateAiAnalysisTimed, h]
  · rfl

/-- C8 witness: the amended theorem at exactly the timeout bound. -/
theorem C8_witness :
    generateAiAnalysisTimed { ok := true, body := "", hasBody := true, chunks := ["x"] }
        600000
      = { outcome := .thrown .abortError, timerCleared := true } ∧
    clientStreamTimeoutMs = 600000 :=
  C8_fixed_timeout { ok := true, body := "", hasBody := true, chunks := ["x"] }
    600000 (Nat.le_refl 600000)

/-- C9 (counterexample): three non-ok responses the claim misdescribes,
traced through the real body handling.  A body `{"detail":""}` parses as
JSON containing `detail`, yet the JavaScript `||` treats the empty string as
absent and the fixed fallback is thrown instead of the `detail` value.  A
body that is the JSON text `null` resolves `res.json()` (the `.catch` does
not fire), and the `errorData.detail` access itself throws a `TypeError` —
not the fixed string the claim's "otherwise" clause promises.  A body
`{"detail":42}` throws an `Error` built from the number `42` (message its
string coercion), not from a body `detail` string and not the fallback. -/
theorem C9_counterexample :
    generateAiAnalysis { ok := false, body := "\x7b\"detail\":\"\"\x7d", hasBody := true, chunks := [] }
      = { outcome := .thrown (.error (.jstr "Failed to generate AI analysis")),
          timerCleared := true } ∧
    ("Failed to generate AI analysis" : String) ≠ "" ∧
    generateAiAnalysis { ok := false, body := "null", hasBody := true, chunks := [] }
      = { outcome := .thrown .typeError, timerCleared := true } ∧
    ThrownKind.typeError ≠ .error (.jstr "Failed to generate AI analysis") ∧
    generateAiAnalysis { ok := false, body := "\x7b\"detail\":42\x7d", hasBody := true, chunks := [] }
      = { outcome := .thrown (.error (.jnum "42")), timerCleared := true } ∧
    Json.jnum "42" ≠ .jstr "Failed to generate AI analysis" :=
  ⟨rfl, by decide, rfl, fun h => ThrownKind.noConfusion h, rfl, fun h => Json.noConfusion h⟩

/-- C9 (amended): every non-ok response throws (never resolves with an
analysis value).  With `errorData` the body parsed as JSON — or `{}` when it
does not parse — the thrown exception is: a `TypeError` from the `detail`
access itself when `errorData` is `null`; an `Error` built from the `detail`
value when that property is present (last duplicate key wins) and truthy —
in particular the message is exactly the `detail` string when it is a
non-empty string — and an `Error` carrying the fixed string
`"Failed to generate AI analysis"` when `detail` is absent (no such key,
non-object body, or unparseable body) or falsy (empty string, zero, `false`,
`null`).  The abort timer is cleared on every exit path. -/
theorem C9_error_responses (r : AiResponse) (h : r.ok = false) :
    generateAiAnalysis r
      = { outcome := .thrown (errorThrow (errorDataOf r.body)), timerCleared := true } ∧
    (∀ v, (generateAiAnalysis r).outcome ≠ .resolved v) ∧
    (∀ d, d ≠ "" → getDetailProp (errorDataOf r.body) = .val (.jstr d) →
      errorThrow (errorDataOf r.body) = .error (.jstr d)) ∧
    (getDetailProp (errorDataOf r.body) = .undefined →
      errorThrow (errorDataOf r.body) = .error (.jstr defaultAiErrorMessage)) ∧
    (∀ v, getDetailProp (errorDataOf r.body) = .val v → jsTruthy v = false →
      errorThrow (errorDataOf r.body) = .error (.jstr defaultAiErrorMessage)) ∧
    (∀ v, getDetailProp (errorDataOf r.body) = .val v → jsTruthy v = true →
      errorThrow (errorDataOf r.body) = .error v) ∧
    (errorDataOf r.body = .jnull → errorThrow (errorDataOf r.body) = .typeError) ∧
    ∀ r2 : AiResponse, (generateAiAnalysis r2).timerCleared = true := by
  have hmain : generateAiAnalysis r
      = { outcome := .thrown (errorThrow (errorDataOf r.body)), timerCleared := true } := by
    simp [generateAiAnalysis, h]
  refine ⟨hmain, ?_, ?_, ?_, ?_, ?_, ?_, ?_⟩
  · intro v; rw [hmain]; simp
  · intro d hne hd; simp [errorThrow, hd, jsTruthy, hne]
  · intro hd; simp [errorThrow, hd]
  · intro v hd hfalsy; simp [errorThrow, hd, hfalsy]
  · intro v hd htruthy; simp [errorThrow, hd, htruthy]
  · intro hnull; rw [hnull]; simp [errorThrow, getDetailProp]
  · intro r2
    by_cases h1 : r2.ok = false <;> by_cases h2 : r2.hasBody = false <;>
      simp [generateAiAnalysis, h1, h2]

/-- C9 witness: the amended theorem at a response whose body carries a
non-empty string `detail`. -/
theorem C9_witness :
    generateAiAnalysis { ok := false, body := "\x7b\"detail\":\"boom\"\x7d", hasBody := true, chunks := [] }
      = { outcome := .thrown (errorThrow (errorDataOf "\x7b\"detail\":\"boom\"\x7d")),
          timerCleared := true } ∧
    errorThrow (errorDataOf "\x7b\"detail\":\"boom\"\x7d") = .error (.jstr "boom") :=
  ⟨(C9_error_responses
      { ok := false, body := "\x7b\"detail\":\"boom\"\x7d", hasBody := true, chunks := [] }
      rfl).1,
   (C9_error_responses
      { ok := false, body := "\x7b\"detail\":\"boom\"\x7d", hasBody := true, chunks := [] }
      rfl).2.2.1 "boom" (by decide) rfl⟩

/-- C10 (counterexample): the empty string is a non-null `scanId`, yet the
effect's falsiness test `if (!scanId) return` drops it exactly like `null`:
the stale logs and status stay in place and no subscription is opened — the
promised reset does not happen for this non-null value. -/
theorem C10_counterexample :
    scanLogsEffect
        { logs := [{ timestamp := "t1", level := "INFO", message := "m1" }],
          status := "done", closed := false } (some "")
      = ({ logs := [{ timestamp := "t1", level := "INFO", message := "m1" }],
           status := "done", closed := false }, false) ∧
    ([{ timestamp := "t1", level := "INFO", message := "m1" }] : List LogPayload) ≠ [] :=
  ⟨rfl, by decide⟩

/-- C10 (amended): when `scanId` changes to a non-empty string the effect
resets the logs to `[]` and the status to `"running"` before any event of
the new stream is processed — the subsequent stream behaviour is independent
of the previous state; when `scanId` is `null`, or the empty string (which
the falsiness test treats like `null`), no subscription is opened and logs
and status are left unchanged. -/
theorem C10_reset_on_new_id (prev : SseState) (sid : String) (h : sid ≠ "") :
    scanLogsEffect prev (some sid) = (sseInit, true) ∧
    sseInit.logs = [] ∧ sseInit.status = "running" ∧
    (∀ evs, sseRun (scanLogsEffect prev (some sid)).1 evs = sseRun sseInit evs) ∧
    scanLogsEffect prev none = (prev, false) ∧
    scanLogsEffect prev (some "") = (prev, false) := by
  have heff : scanLogsEffect prev (some sid) = (sseInit, true) := by
    simp [scanLogsEffect, h]
  refine ⟨heff, rfl, rfl, ?_, rfl, rfl⟩
  intro evs
  rw [heff]

/-- C10 witness: the amended theorem at a concrete stale state and id. -/
theorem C10_witness :
    scanLogsEffect { logs := [{ timestamp := "t1", level := "INFO", message := "m1" }],
                     status := "done", closed := false } (some "abc123")
      = (sseInit, true) ∧
    sseInit.logs = [] ∧ sseInit.status = "running" ∧
    (∀ evs, sseRun (scanLogsEffect
        { logs := [{ timestamp := "t1", level := "INFO", message := "m1" }],
          status := "done", closed := false } (some "abc123")).1 evs = sseRun sseInit evs) ∧
    scanLogsEffect { logs := [{ timestamp := "t1", level := "INFO", message := "m1" }],
                     status := "done", closed := false } none
      = ({ logs := [{ timestamp := "t1", level := "INFO", message := "m1" }],
           status := "done", closed := false }, false) ∧
    scanLogsEffect { logs := [{ timestamp := "t1", level := "INFO", message := "m1" }],
                     status := "done", closed := false } (some "")
      = ({ logs := [{ timestamp := "t1", level := "INFO", message := "m1" }],
           status := "done", closed := false }, false) :=
  C10_reset_on_new_id
    { logs := [{ timestamp := "t1", level := "INFO", message := "m1" }],
      status := "done", closed := false } "abc123" (by decide)

end Relic
